import Mathlib

/-!
Shallow embedding of the OGRE HLMS compute shader cache
(src/OgreMain/src/OgreHlmsCompute.cpp), the scene-node importer
(src/Components/SceneFormat/src/OgreSceneFormatImporter.cpp) and the
GL3Plus texture-buffer binding
(src/RenderSystems/GL3Plus/src/Vao/OgreGL3PlusTexBufferPacked.cpp),
together with theorems settling the specification claims.

Machine integers are modelled as Nat/Int with explicit reduction modulo
2^32 (uint32) or 2^64 (size_t) where the C++ arithmetic can wrap.
C++ exceptions are modelled with Except / explicit error constructors and
assert is modelled as a checked predicate (assertions enabled).
-/

namespace OgreSpec

/-! ## Property sets (Hlms)

An HlmsProperty pairs an interned identifier (IdString, a 32-bit content
hash of the name; modelled as a Nat, with the compute keys given distinct
values) with an int32 value.

Modelled from the spec: Hlms::setProperty and Hlms::getProperty live in
OgreHlms.cpp, which is not under src/.  The spec describes the property
set as an ordered mapping identifier to int32 with no duplicate keys
(spec section 3, PropertySet); setProperty keeps the vector sorted by key,
replacing the entry when the key is already present, and getProperty
returns the stored value or a default of zero.
-/

structure HlmsProperty where
  keyName : Nat
  value   : Int
deriving DecidableEq, Repr

/-- IdString key for threads_per_group_x (distinct tokens stand for the
interned 32-bit hashes; only distinctness matters). -/
def ThreadsPerGroupX : Nat := 0
/-- IdString key for threads_per_group_y. -/
def ThreadsPerGroupY : Nat := 1
/-- IdString key for threads_per_group_z. -/
def ThreadsPerGroupZ : Nat := 2
/-- IdString key for num_thread_groups_x. -/
def NumThreadGroupsX : Nat := 3
/-- IdString key for num_thread_groups_y. -/
def NumThreadGroupsY : Nat := 4
/-- IdString key for num_thread_groups_z. -/
def NumThreadGroupsZ : Nat := 5
/-- IdString key for hlms_disable_stage (HlmsBaseProp::DisableStage). -/
def DisableStage : Nat := 6

/-- Sorted insert-or-replace, the effect of one Hlms::setProperty call on
the sorted property vector (lower_bound by key, then replace or insert). -/
def insertProp (p : HlmsProperty) : List HlmsProperty → List HlmsProperty
  | [] => [p]
  | q :: qs =>
    if p.keyName < q.keyName then p :: q :: qs
    else if p.keyName = q.keyName then p :: qs
    else q :: insertProp p qs

/-- The property set produced by issuing setProperty for each pair of the
list in order, starting from an empty set. -/
def buildProps (l : List HlmsProperty) : List HlmsProperty :=
  l.foldl (fun s p => insertProp p s) []

/-- Value lookup by key in a property vector (first match). -/
def lookupProp : List HlmsProperty → Nat → Option Int
  | [], _ => none
  | p :: ps, k => if p.keyName = k then some p.value else lookupProp ps k

/-- Hlms::getProperty: the stored value for the key, or the default
(zero unless stated) when the key is absent. -/
def getProperty (props : List HlmsProperty) (key : Nat) (defaultVal : Int := 0) : Int :=
  (lookupProp props key).getD defaultVal

/-- Keys are pairwise strictly increasing along the vector (the
setProperty sorted invariant). -/
def keysSorted (s : List HlmsProperty) : Prop :=
  List.Pairwise (fun a b => a.keyName < b.keyName) s

/-! ## HlmsCompute::compileShader, program-dedup cache branch
(OgreHlmsCompute.cpp lines 219-261).

The compiled-shader cache (mCompiledShaderCache, a std::map from the
128-bit MurmurHash of the fully expanded source to a shared program
handle) is modelled as an association list with unique keys; hashes and
program handles are Nats.  The source reads, verbatim:

    CompiledShaderMap::const_iterator itor = mCompiledShaderCache.find( hashVal );
    if( itor == mCompiledShaderCache.end() )
    {
        shader = itor->second;
    }
    else
    {
        ... createProgram / setSource / load ...
        shader = gp;
        mCompiledShaderCache[hashVal] = shader;
    }

so a missing hash leads to reading itor->second through the end iterator
(modelled as the derefEndIterator outcome, since the read has no defined
result), while a present hash creates and loads a brand-new program and
overwrites the cache entry under that hash.
-/

inductive ShaderCacheOutcome where
  /-- HlmsBaseProp::DisableStage was set: no lookup, no program, shader
  stays null. -/
  | noShader
  /-- The hash was absent and the code reads itor->second with itor equal
  to end(): no defined result. -/
  | derefEndIterator
  /-- The hash was present: a new program is created and loaded and the
  cache entry for the hash is overwritten with the new handle. -/
  | newProgram (handle : Nat) (cache : List (Nat × Nat))
deriving DecidableEq, Repr

/-- The shader-selection phase of HlmsCompute::compileShader
(lines 219-264): guard on the disable flag, hash lookup, and the inverted
found/not-found branch as written in the source. -/
def compileShaderProgramPhase (disableStage : Bool) (cache : List (Nat × Nat))
    (hashVal freshHandle : Nat) : ShaderCacheOutcome :=
  if disableStage then .noShader
  else
    match cache.find? (fun e => e.fst == hashVal) with
    | none => .derefEndIterator
    | some _ =>
        .newProgram freshHandle
          (cache.map fun e => if e.fst == hashVal then (e.fst, freshHandle) else e)

/-! ## HlmsCompute::compileShader, PSO assembly and the zero-size check
(OgreHlmsCompute.cpp lines 266-289).

The six dispatch-shape fields of HlmsComputePso are uint32; getProperty
returns int32 with default 0 when the key is absent, and the assignment
converts to uint32 (reduction modulo 2^32).  The products in the check are
uint32 multiplications (modulo 2^32).  A zero product raises
Exception::ERR_INVALIDPARAMS, aborting the compile with no PSO.
-/

/-- 2^32, the uint32 modulus. -/
def UINT32MOD : Nat := 4294967296

/-- Conversion of an int32 value to the uint32 field it is assigned to. -/
def toU32 (v : Int) : Nat := (v % (UINT32MOD : Int)).toNat

/-- uint32 multiplication. -/
def u32mul (a b : Nat) : Nat := (a * b) % UINT32MOD

structure HlmsComputePsoModel where
  computeShader : Option Nat
  threadsPerGroupX : Nat
  threadsPerGroupY : Nat
  threadsPerGroupZ : Nat
  numThreadGroupsX : Nat
  numThreadGroupsY : Nat
  numThreadGroupsZ : Nat
deriving DecidableEq, Repr

/-- The uint32 product of the three threads-per-group fields as computed
at line 276. -/
def threadsProductU32 (props : List HlmsProperty) : Nat :=
  u32mul (u32mul (toU32 (getProperty props ThreadsPerGroupX))
                 (toU32 (getProperty props ThreadsPerGroupY)))
         (toU32 (getProperty props ThreadsPerGroupZ))

/-- The uint32 product of the three num-thread-groups fields as computed
at line 277. -/
def groupsProductU32 (props : List HlmsProperty) : Nat :=
  u32mul (u32mul (toU32 (getProperty props NumThreadGroupsX))
                 (toU32 (getProperty props NumThreadGroupsY)))
         (toU32 (getProperty props NumThreadGroupsZ))

/-- The PSO assembly tail of HlmsCompute::compileShader (lines 266-289):
read the six dispatch-shape properties into the uint32 PSO fields and
raise ERR_INVALIDPARAMS when either triple has uint32 product zero. -/
def assemblePso (props : List HlmsProperty) (shader : Option Nat) :
    Except Unit HlmsComputePsoModel :=
  if threadsProductU32 props = 0 ∨ groupsProductU32 props = 0 then
    .error ()
  else
    .ok ⟨shader,
         toU32 (getProperty props ThreadsPerGroupX),
         toU32 (getProperty props ThreadsPerGroupY),
         toU32 (getProperty props ThreadsPerGroupZ),
         toU32 (getProperty props NumThreadGroupsX),
         toU32 (getProperty props NumThreadGroupsY),
         toU32 (getProperty props NumThreadGroupsZ)⟩

/-! ## HlmsCompute::dispatch, PSO cache phase
(OgreHlmsCompute.cpp lines 323-364) and HlmsCompute::clearShaderCache
(lines 306-321).

A ComputeJob is identified by its id (the C++ object identity);
mPsoCacheHash has type size_t, with the invalid sentinel (size_t)(-1).
A ComputePsoCache entry records the job pointer that triggered the
compile, a hard copy of the property set and the compiled PSO.

Modelled from the spec: ComputePsoCache::operator== and
HlmsComputeJob::_updateAutoProperties are declared in OgreHlmsCompute.h /
OgreHlmsComputeJob.cpp, which are not under src/.  The spec states the
cache search compares by value equality of the property set, not by
identity and not by job pointer (spec section 4.2, dispatch contract), so
the std::find predicate compares setProperties only; the result of
_updateAutoProperties is passed in as the autoProps argument.
-/

structure ComputeJob where
  id : Nat
  mSetProperties : List HlmsProperty
  mPsoCacheHash : Nat
deriving DecidableEq, Repr

structure ComputePsoCache where
  jobId : Nat
  setProperties : List HlmsProperty
  pso : HlmsComputePsoModel
deriving DecidableEq, Repr

/-- The invalid sentinel (size_t)(-1) assigned by clearShaderCache. -/
def invalidPsoCacheHash : Nat := 18446744073709551615

/-- The cache-management phase of HlmsCompute::dispatch (lines 325-364).

If the cached index of the job is in bounds nothing happens.  Otherwise the
automatically derived properties of the job are refreshed (autoProps), borrowed
by swap into a probe entry (leaving the property vector of the job empty), and the cache
is searched by property-set value equality.  On a hit the borrowed vector
is swapped back and only the found index is recorded.  On a miss the
vector is swapped back first (line 343), then compileShader runs: when it
throws, the exception propagates with the job holding autoProps (the
error carries the job state at the throw); when it returns, the PSO is
appended, the new entry receives a hard copy of the property set of the job
(line 353) and the cached index of the job is set to the last entry.  The Bool of the
normal result records whether a compile happened on this call. -/
def dispatchCachePhase (compileResult : Except Unit HlmsComputePsoModel)
    (autoProps : List HlmsProperty) (cache : List ComputePsoCache)
    (job : ComputeJob) :
    Except ComputeJob (List ComputePsoCache × ComputeJob × Bool) :=
  if job.mPsoCacheHash < cache.length then
    .ok (cache, job, false)
  else
    match cache.findIdx? (fun e => e.setProperties == autoProps) with
    | some i =>
        .ok (cache, { job with mSetProperties := autoProps, mPsoCacheHash := i }, false)
    | none =>
        let jobBack : ComputeJob := { job with mSetProperties := autoProps }
        match compileResult with
        | .error _ => .error jobBack
        | .ok pso =>
            .ok (cache ++ [{ jobId := job.id, setProperties := autoProps, pso := pso }],
                 { jobBack with mPsoCacheHash := cache.length }, true)

/-- The parts of the HlmsCompute state the cache claims observe. -/
structure HlmsComputeState where
  mComputeShaderCache : List ComputePsoCache
  mCompiledShaderCache : List (Nat × Nat)
  jobs : List ComputeJob
deriving DecidableEq, Repr

/-- HlmsCompute::clearShaderCache (lines 306-321): walk the PSO cache,
destroy each PSO through the render system hook (the returned list records
the hook calls in order), set the cached index of the job recorded in each entry to
(size_t)(-1), then clear both the compiled-program cache and the PSO
cache.  Jobs not recorded in any cache entry are left untouched. -/
def clearShaderCache (st : HlmsComputeState) :
    HlmsComputeState × List HlmsComputePsoModel :=
  ({ mComputeShaderCache := [],
     mCompiledShaderCache := [],
     jobs := st.jobs.map fun j =>
       if st.mComputeShaderCache.any (fun e => e.jobId == j.id) then
         { j with mPsoCacheHash := invalidPsoCacheHash }
       else j },
   st.mComputeShaderCache.map (fun e => e.pso))

/-! ## SceneFormatImporter (OgreSceneFormatImporter.cpp)

A serialized scene_nodes array element is modelled by the fields the
importer reads.  Two distinct is_root_node fields record where the flag
sits in the document: sceneNodeIsRootNode is a member of the wrapper
element itself (this is what line 215 reads, FindMember on
sceneNodeValue), nodeIsRootNode is nested inside the "node" object (the
position the data-format section of the spec describes; the importer
never reads it).  Transform fields (position, rotation, scale,
inheritance flags, applied by importNode, lines 130-153) only touch node
state no claim observes and are not tracked.

The scene manager is modelled by a handle allocator: the designated root
nodes for the two memory types pre-exist with handles 0 (dynamic) and 1
(static); createSceneNode and createChildSceneNode allocate fresh
handles.
-/

structure SNodeRec where
  /-- The array element itself is a JSON object (IsObject on the element,
  checked at line 187 for parents). -/
  isObject : Bool
  /-- The element has a "node" member that is an object (line 161-162). -/
  hasNode : Bool
  /-- node."parent_id" when present and unsigned (lines 169-171). -/
  parentId : Option Nat
  /-- node."is_static" when present and boolean (lines 173-175). -/
  isStatic : Option Bool
  /-- "is_root_node" as a member of the wrapper element (line 215 reads
  this: FindMember is called on sceneNodeValue, not on nodeValue). -/
  sceneNodeIsRootNode : Option Bool
  /-- "is_root_node" nested inside the "node" object; present in the
  documents of the spec examples but never read by the importer. -/
  nodeIsRootNode : Option Bool
deriving DecidableEq, Repr

inductive NodeKind where
  /-- One of the designated root nodes of the scene manager. -/
  | designatedRoot
  /-- An independent top-level node from createSceneNode. -/
  | topLevel
  /-- A child created by createChildSceneNode on the parent handle. -/
  | child (parent : Nat)
deriving DecidableEq, Repr

structure SceneNodeInfo where
  isStatic : Bool
  kind : NodeKind
deriving DecidableEq, Repr

/-- getRootSceneNode: the pre-existing designated root for the memory
type. -/
def rootHandle (isStatic : Bool) : Nat := if isStatic then 1 else 0

structure SceneState where
  nodes : List (Nat × SceneNodeInfo)
  nextHandle : Nat
deriving DecidableEq, Repr

/-- The scene manager before the import: the two designated roots exist,
fresh handles start at 2. -/
def initialScene : SceneState :=
  { nodes := [(0, ⟨false, .designatedRoot⟩), (1, ⟨true, .designatedRoot⟩)],
    nextHandle := 2 }

def createChildSceneNode (sc : SceneState) (parent : Nat) (isStatic : Bool) :
    Nat × SceneState :=
  (sc.nextHandle,
   { nodes := sc.nodes ++ [(sc.nextHandle, ⟨isStatic, .child parent⟩)],
     nextHandle := sc.nextHandle + 1 })

def createSceneNode (sc : SceneState) (isStatic : Bool) : Nat × SceneState :=
  (sc.nextHandle,
   { nodes := sc.nodes ++ [(sc.nextHandle, ⟨isStatic, .topLevel⟩)],
     nextHandle := sc.nextHandle + 1 })

/-- mCreatedSceneNodes (std::map from serialized index to created node):
lookup. -/
def findCreated : List (Nat × Nat) → Nat → Option Nat
  | [], _ => none
  | (k, v) :: rest, i => if k = i then some v else findCreated rest i

/-- mCreatedSceneNodes insert-or-assign (map operator[], line 227). -/
def insertCreated : List (Nat × Nat) → Nat → Nat → List (Nat × Nat)
  | [], i, h => [(i, h)]
  | (k, v) :: rest, i, h =>
    if k = i then (k, h) :: rest else (k, v) :: insertCreated rest i h

structure ImportState where
  scene : SceneState
  mCreatedSceneNodes : List (Nat × Nat)
deriving DecidableEq, Repr

def initialImportState : ImportState :=
  { scene := initialScene, mCreatedSceneNodes := [] }

inductive ImportErr where
  /-- OGRE_EXCEPT at line 231: the element has no "node" object. -/
  | missingNodeObject (nodeIdx : Nat)
  /-- OGRE_EXCEPT at line 195: the parent could not be found or created. -/
  | parentNotFound (nodeIdx parentIdx : Nat)
  /-- rapidjson RAPIDJSON_ASSERT(IsObject()) inside MemberBegin, reached
  by importSceneNodes on the scene_nodes array value. -/
  | memberBeginOnArray
deriving DecidableEq, Repr

inductive ImportResult (α : Type) where
  /-- The fuel bound on the C++ call stack was exhausted: the run of the
  source performs at least this many nested importSceneNode calls. -/
  | outOfFuel
  /-- A thrown exception propagating out of the import. -/
  | fatal (e : ImportErr)
  | ok (a : α)
deriving DecidableEq, Repr

/-- SceneFormatImporter::importSceneNode (lines 155-238), with fuel
bounding the recursion depth.  The structure follows the source: require
the "node" object; read parent_id (default: own index) and is_static
(default: false); when the parent index differs, use the already-created
parent from the map, or recursively construct it from the same array when
the index is in bounds and the element is an object, else throw; attach a
fresh child under the parent.  When the parent index equals the own
index, read is_root_node from the wrapper element and take the designated
root when it is true, else a fresh top-level node.  Finally record the
created handle in the map under the own index. -/
def importSceneNode : Nat → List SNodeRec → SNodeRec → Nat → ImportState →
    ImportResult (Nat × ImportState)
  | 0, _, _, _, _ => .outOfFuel
  | fuel + 1, sceneNodesJson, sceneNodeValue, nodeIdx, st =>
    if sceneNodeValue.hasNode then
      let parentIdx := sceneNodeValue.parentId.getD nodeIdx
      let isStatic := sceneNodeValue.isStatic.getD false
      if parentIdx ≠ nodeIdx then
        let parentRes : ImportResult (Nat × ImportState) :=
          match findCreated st.mCreatedSceneNodes parentIdx with
          | some h => .ok (h, st)
          | none =>
            match sceneNodesJson[parentIdx]? with
            | some parentRec =>
              if parentRec.isObject then
                importSceneNode fuel sceneNodesJson parentRec parentIdx st
              else .fatal (.parentNotFound nodeIdx parentIdx)
            | none => .fatal (.parentNotFound nodeIdx parentIdx)
        match parentRes with
        | .outOfFuel => .outOfFuel
        | .fatal e => .fatal e
        | .ok (parentNode, st1) =>
          let created := createChildSceneNode st1.scene parentNode isStatic
          .ok (created.fst,
               { scene := created.snd,
                 mCreatedSceneNodes :=
                   insertCreated st1.mCreatedSceneNodes nodeIdx created.fst })
      else
        let isRootNode := sceneNodeValue.sceneNodeIsRootNode.getD false
        let created :=
          if isRootNode then (rootHandle isStatic, st.scene)
          else createSceneNode st.scene isStatic
        .ok (created.fst,
             { scene := created.snd,
               mCreatedSceneNodes :=
                 insertCreated st.mCreatedSceneNodes nodeIdx created.fst })
    else .fatal (.missingNodeObject nodeIdx)

/-- SceneFormatImporter::importSceneNodes (lines 240-257).  The value it
receives is the scene_nodes array: the call site (importScene, lines
470-472) calls it only after IsArray() holds.  The loop nevertheless
iterates the value with rapidjson object-member iterators,
json.MemberBegin() and json.MemberEnd() (lines 242-244); rapidjson
GenericValue::MemberBegin is defined only for objects and asserts
IsObject(), so on the array value the assertion fails and the import
aborts before visiting any entry (with assertions disabled the iteration
reinterprets the element storage as name/value member pairs, which has no
defined meaning at the JSON level).  importSceneNode above, by contrast,
indexes the same value as an array (Size() and operator[] at lines
186-189). -/
def importSceneNodes (_sceneNodesJson : List SNodeRec) (_st : ImportState) :
    ImportResult ImportState :=
  .fatal .memberBeginOnArray

/-! ## GL3PlusTexBufferPacked::bindBuffer
(OgreGL3PlusTexBufferPacked.cpp lines 92-147).

The byte capacity of the view is mNumElements * mBytesPerElement;
mFinalBufferStart is the element offset of this buffer inside the shared
VBO.  All six stage entry points (bindBufferVS/PS/GS/HS/DS/CS,
lines 149-177) forward to the same bindBuffer.  Offsets and sizes are
size_t; the subtraction in the first assertion wraps modulo 2^64.
-/

structure TexBufferPackedModel where
  mNumElements : Nat
  mBytesPerElement : Nat
  mFinalBufferStart : Nat
deriving DecidableEq, Repr

/-- 2^64, the size_t modulus. -/
def SIZETMOD : Nat := 18446744073709551616

/-- size_t subtraction (wrapping). -/
def sizetSub (a b : Nat) : Nat :=
  (a % SIZETMOD + (SIZETMOD - b % SIZETMOD)) % SIZETMOD

/-- Total byte size of the buffer view. -/
def totalSizeBytes (buf : TexBufferPackedModel) : Nat :=
  buf.mNumElements * buf.mBytesPerElement

/-- The two runtime assertions of bindBuffer (lines 95-96):
assert( offset < (mNumElements * mBytesPerElement - 1) ) and
assert( (offset + sizeBytes) <= mNumElements * mBytesPerElement );
the subtraction in the first is size_t arithmetic. -/
def bindBufferAssertsHold (buf : TexBufferPackedModel) (offset sizeBytes : Nat) : Prop :=
  offset < sizetSub (totalSizeBytes buf) 1 ∧
  offset + sizeBytes ≤ totalSizeBytes buf

instance (buf : TexBufferPackedModel) (offset sizeBytes : Nat) :
    Decidable (bindBufferAssertsHold buf offset sizeBytes) :=
  inferInstanceAs (Decidable (_ ∧ _))

/-- The byte range bindBuffer hands to glTexBufferRange (lines 98 and
139-141): the start byte inside the shared VBO and the length in bytes.
sizeBytes == 0 is replaced by the rest of the buffer from offset
(line 98). -/
def bindBufferRange (buf : TexBufferPackedModel) (offset sizeBytes : Nat) :
    Nat × Nat :=
  (buf.mFinalBufferStart * buf.mBytesPerElement + offset,
   if sizeBytes = 0 then sizetSub (totalSizeBytes buf) offset else sizeBytes)

/-! ## Concrete inputs used by the claim theorems -/

/-- A two-node scene_nodes array: node 0 is a static child of node 1,
node 1 (no parent_id, so its parent index defaults to its own index) is a
dynamic top-level node declared after its child. -/
def sceneNodesForward : List SNodeRec :=
  [⟨true, true, some 1, some true, none, none⟩,
   ⟨true, true, none, some false, none, none⟩]

/-- A scene_nodes array with a parent cycle: node 0 declares parent 1 and
node 1 declares parent 0, so no node reaches the self-parent base case. -/
def sceneNodesCyc : List SNodeRec :=
  [⟨true, true, some 1, none, none, none⟩,
   ⟨true, true, some 0, none, none, none⟩]

/-- The example document of the spec,
with scene_nodes equal to
[ \x7b"node":\x7b"parent_id":1\x7d\x7d,
  \x7b"node":\x7b"parent_id":1,"is_root_node":true\x7d\x7d ]:
node 1 carries is_root_node inside its nested node object (the
nodeIsRootNode field), not as a member of the wrapper element. -/
def sceneNodesRootExample : List SNodeRec :=
  [⟨true, true, some 1, none, none, none⟩,
   ⟨true, true, some 1, none, none, some true⟩]

/-- A property write list with two distinct keys. -/
def propsAB : List HlmsProperty := [⟨1, 2⟩, ⟨3, 4⟩]

/-- The same writes in the opposite order. -/
def propsBA : List HlmsProperty := [⟨3, 4⟩, ⟨1, 2⟩]

/-- A one-entry property set used by the dispatch examples. -/
def propsP : List HlmsProperty := [⟨1, 7⟩]

/-- A concrete PSO used by the dispatch examples. -/
def psoW : HlmsComputePsoModel := ⟨none, 1, 1, 1, 1, 1, 1⟩

/-- A fresh job: empty properties, cache index at the invalid sentinel. -/
def jobA : ComputeJob := ⟨0, [], invalidPsoCacheHash⟩

/-- A second fresh job with a different identity. -/
def jobB : ComputeJob := ⟨1, [], invalidPsoCacheHash⟩

/-! ## Helper lemmas for the property-set model -/

theorem mem_insertProp (p r : HlmsProperty) (s : List HlmsProperty)
    (h : r ∈ insertProp p s) : r = p ∨ r ∈ s := by
  induction s with
  | nil => simpa [insertProp] using h
  | cons q qs ih =>
    by_cases h1 : p.keyName < q.keyName
    · simp only [insertProp, if_pos h1, List.mem_cons] at h
      rcases h with rfl | h
      · exact Or.inl rfl
      · exact Or.inr (List.mem_cons.mpr h)
    · by_cases h2 : p.keyName = q.keyName
      · simp only [insertProp, if_neg h1, if_pos h2, List.mem_cons] at h
        rcases h with rfl | h
        · exact Or.inl rfl
        · exact Or.inr (List.mem_cons.mpr (Or.inr h))
      · simp only [insertProp, if_neg h1, if_neg h2, List.mem_cons] at h
        rcases h with rfl | h
        · simp
        · rcases ih h with rfl | h3
          · simp
          · simp [h3]

theorem keysSorted_insertProp (p : HlmsProperty) (s : List HlmsProperty)
    (hs : keysSorted s) : keysSorted (insertProp p s) := by
  induction s with
  | nil => simp [insertProp, keysSorted]
  | cons q qs ih =>
    rcases List.pairwise_cons.mp hs with ⟨hhead, hqs⟩
    by_cases h1 : p.keyName < q.keyName
    · simp only [insertProp, if_pos h1]
      refine List.pairwise_cons.mpr ⟨?_, hs⟩
      intro b hb
      rcases List.mem_cons.mp hb with rfl | hb2
      · exact h1
      · exact Nat.lt_trans h1 (hhead b hb2)
    · by_cases h2 : p.keyName = q.keyName
      · simp only [insertProp, if_neg h1, if_pos h2]
        refine List.pairwise_cons.mpr ⟨?_, hqs⟩
        intro b hb
        exact h2 ▸ hhead b hb
      · simp only [insertProp, if_neg h1, if_neg h2]
        refine List.pairwise_cons.mpr ⟨?_, ih hqs⟩
        intro b hb
        rcases mem_insertProp p b qs hb with rfl | hb2
        · omega
        · exact hhead b hb2

theorem lookupProp_insertProp (p : HlmsProperty) (s : List HlmsProperty) (k : Nat) :
    lookupProp (insertProp p s) k =
      if p.keyName = k then some p.value else lookupProp s k := by
  induction s with
  | nil => simp [insertProp, lookupProp]
  | cons q qs ih =>
    simp only [insertProp]
    by_cases h1 : p.keyName < q.keyName
    · rw [if_pos h1]
      simp only [lookupProp]
    · rw [if_neg h1]
      by_cases h2 : p.keyName = q.keyName
      · rw [if_pos h2]
        simp only [lookupProp]
        by_cases hk : p.keyName = k
        · rw [if_pos hk, if_pos hk]
        · rw [if_neg hk, if_neg hk, if_neg (h2 ▸ hk)]
      · rw [if_neg h2]
        simp only [lookupProp]
        by_cases hqk : q.keyName = k
        · have hk : ¬p.keyName = k := by omega
          rw [if_pos hqk, if_neg hk, if_pos hqk]
        · rw [if_neg hqk, ih, if_neg hqk]

/-- A key strictly below every key of the vector is absent from it. -/
theorem lookupProp_eq_none_of_lt (s : List HlmsProperty) (k : Nat)
    (hbelow : ∀ p ∈ s, k < p.keyName) :
    lookupProp s k = none := by
  induction s with
  | nil => rfl
  | cons q qs ih =>
    have hq := hbelow q (by simp)
    simp only [lookupProp, if_neg (by omega : ¬q.keyName = k)]
    exact ih (fun p hp => hbelow p (by simp [hp]))

/-- Sorted property vectors with the same lookup function are equal. -/
theorem keysSorted_ext : ∀ s₁ s₂ : List HlmsProperty, keysSorted s₁ → keysSorted s₂ →
    (∀ k, lookupProp s₁ k = lookupProp s₂ k) → s₁ = s₂ := by
  intro s₁
  induction s₁ with
  | nil =>
    intro s₂ _ _ hl
    cases s₂ with
    | nil => rfl
    | cons q qs =>
      have := hl q.keyName
      simp [lookupProp] at this
  | cons p ps ih =>
    intro s₂ h1 h2 hl
    cases s₂ with
    | nil =>
      have := hl p.keyName
      simp [lookupProp] at this
    | cons q qs =>
      rcases List.pairwise_cons.mp h1 with ⟨hpshead, hps⟩
      rcases List.pairwise_cons.mp h2 with ⟨hqshead, hqs⟩
      have hkey : p.keyName = q.keyName := by
        by_contra hne
        rcases Nat.lt_or_ge p.keyName q.keyName with hlt | hge
        · have := hl p.keyName
          simp only [lookupProp, if_pos rfl,
            if_neg (by omega : ¬q.keyName = p.keyName)] at this
          rw [lookupProp_eq_none_of_lt qs p.keyName
            (fun r hr => Nat.lt_trans hlt (hqshead r hr))] at this
          exact Option.noConfusion this
        · have hgt : q.keyName < p.keyName := by omega
          have := hl q.keyName
          simp only [lookupProp, if_pos rfl,
            if_neg (by omega : ¬p.keyName = q.keyName)] at this
          rw [lookupProp_eq_none_of_lt ps q.keyName
            (fun r hr => Nat.lt_trans hgt (hpshead r hr))] at this
          exact Option.noConfusion this.symm
      have hval : p.value = q.value := by
        have := hl p.keyName
        simp only [lookupProp, if_pos rfl, hkey, if_pos rfl] at this
        exact Option.some.inj this
      have hpq : p = q := by
        cases p; cases q
        simp_all
      subst hpq
      have htail : ps = qs := by
        apply ih qs hps hqs
        intro k
        by_cases hk : p.keyName = k
        · subst hk
          rw [lookupProp_eq_none_of_lt ps p.keyName (fun r hr => hpshead r hr),
              lookupProp_eq_none_of_lt qs p.keyName (fun r hr => hqshead r hr)]
        · have := hl k
          simpa only [lookupProp, if_neg hk] using this
      rw [htail]

theorem keysSorted_buildProps (l : List HlmsProperty) : keysSorted (buildProps l) := by
  suffices h : ∀ s, keysSorted s → keysSorted (l.foldl (fun s p => insertProp p s) s) by
    exact h [] (by simp [keysSorted])
  induction l with
  | nil => intro s hs; simpa using hs
  | cons p ps ih =>
    intro s hs
    exact ih (insertProp p s) (keysSorted_insertProp p s hs)

/-- Lookup in buildProps is last-write-wins over the issue order. -/
theorem lookupProp_buildProps (l : List HlmsProperty) (k : Nat) :
    lookupProp (buildProps l) k = lookupProp l.reverse k := by
  induction l using List.reverseRecOn with
  | nil => rfl
  | append_singleton l p ih =>
    rw [buildProps, List.foldl_append]
    simp only [List.foldl_cons, List.foldl_nil]
    rw [show List.foldl (fun s p => insertProp p s) [] l = buildProps l from rfl]
    rw [lookupProp_insertProp, List.reverse_append]
    simp only [List.reverse_cons, List.reverse_nil, List.nil_append,
      List.singleton_append]
    rw [ih]
    simp [lookupProp]

/-- Membership characterization of a successful lookup. -/
theorem lookupProp_some_mem (s : List HlmsProperty) (k : Nat) (v : Int)
    (h : lookupProp s k = some v) : ∃ p ∈ s, p.keyName = k ∧ p.value = v := by
  induction s with
  | nil => simp [lookupProp] at h
  | cons q qs ih =>
    by_cases hq : q.keyName = k
    · simp only [lookupProp, if_pos hq] at h
      exact ⟨q, by simp, hq, Option.some.inj h⟩
    · simp only [lookupProp, if_neg hq] at h
      rcases ih h with ⟨p, hp, hk, hv⟩
      exact ⟨p, by simp [hp], hk, hv⟩

theorem lookupProp_eq_none_iff (s : List HlmsProperty) (k : Nat) :
    lookupProp s k = none ↔ ∀ p ∈ s, p.keyName ≠ k := by
  induction s with
  | nil => simp [lookupProp]
  | cons q qs ih =>
    by_cases hq : q.keyName = k
    · simp [lookupProp, hq]
    · simp [lookupProp, hq, ih]

/-- On a vector with pairwise distinct keys, lookup finds the value of any
member holding the key. -/
theorem lookupProp_of_mem_nodup (s : List HlmsProperty) (p : HlmsProperty)
    (hn : (s.map HlmsProperty.keyName).Nodup) (hp : p ∈ s) :
    lookupProp s p.keyName = some p.value := by
  induction s with
  | nil => simp at hp
  | cons q qs ih =>
    rcases List.mem_cons.mp hp with rfl | hmem
    · simp [lookupProp]
    · by_cases hq : q.keyName = p.keyName
      · exfalso
        simp only [List.map_cons, List.nodup_cons] at hn
        exact hn.1 (hq ▸ List.mem_map_of_mem HlmsProperty.keyName hmem)
      · simp only [lookupProp, if_neg hq]
        simp only [List.map_cons, List.nodup_cons] at hn
        exact ih hn.2 hmem

/-- Permuting a distinct-key vector does not change lookup. -/
theorem lookupProp_perm (s₁ s₂ : List HlmsProperty) (hp : s₁.Perm s₂)
    (hn : (s₁.map HlmsProperty.keyName).Nodup) (k : Nat) :
    lookupProp s₁ k = lookupProp s₂ k := by
  cases h1 : lookupProp s₁ k with
  | none =>
    rw [lookupProp_eq_none_iff] at h1
    rw [(lookupProp_eq_none_iff s₂ k).mpr]
    intro p hps
    exact h1 p (hp.symm.subset hps)
  | some v =>
    rcases lookupProp_some_mem s₁ k v h1 with ⟨p, hmem, hkeyv, hval⟩
    have hn2 : (s₂.map HlmsProperty.keyName).Nodup :=
      (hp.map HlmsProperty.keyName).nodup_iff.mp hn
    have := lookupProp_of_mem_nodup s₂ p hn2 (hp.subset hmem)
    rw [hkeyv, hval] at this
    exact this.symm

/-- Issuing the same distinct-key property writes in any order produces the
same sorted property vector. -/
theorem buildProps_perm (l₁ l₂ : List HlmsProperty) (hp : l₁.Perm l₂)
    (hn : (l₁.map HlmsProperty.keyName).Nodup) :
    buildProps l₁ = buildProps l₂ := by
  apply keysSorted_ext _ _ (keysSorted_buildProps l₁) (keysSorted_buildProps l₂)
  intro k
  rw [lookupProp_buildProps, lookupProp_buildProps]
  apply lookupProp_perm
  · exact (List.reverse_perm l₁).trans (hp.trans (List.reverse_perm l₂).symm)
  · simpa using hn

/-! ## Claim theorems -/

/-- Claim C1: the program-dedup branch of compileShader is inverted.  With the
disable flag clear, a hash absent from the compiled-shader cache makes the
code read through the end iterator instead of creating and registering a
program, and a hash already present makes it create and load a fresh
program (handle 7, distinct from the cached handle 5) and overwrite the
entry, instead of reusing the cached handle; so byte-identical expansions
do not share one handle and the documented hit-reuses / miss-compiles
contract does not hold. -/
theorem compileShader_cacheBranch_inverted :
    compileShaderProgramPhase false [] 42 7 = ShaderCacheOutcome.derefEndIterator ∧
    compileShaderProgramPhase false [(42, 5)] 42 7 =
      ShaderCacheOutcome.newProgram 7 [(42, 7)] ∧
    (7 : Nat) ≠ 5 := by decide

/-- Claim C4: on the cyclic two-node array, importSceneNode never terminates
normally: for every bound on the recursion depth the run exhausts it, at
both entry indices, instead of reporting a malformed-file error. -/
theorem importSceneNode_cycle_nonterminating :
    ∀ fuel : Nat,
      importSceneNode fuel sceneNodesCyc ⟨true, true, some 1, none, none, none⟩ 0
        initialImportState = .outOfFuel ∧
      importSceneNode fuel sceneNodesCyc ⟨true, true, some 0, none, none, none⟩ 1
        initialImportState = .outOfFuel := by
  intro fuel
  induction fuel with
  | zero => exact ⟨rfl, rfl⟩
  | succ n ih =>
    simp only [sceneNodesCyc, initialImportState] at ih
    constructor
    · simp only [importSceneNode, sceneNodesCyc, initialImportState, findCreated]
      norm_num
      rw [ih.2]
    · simp only [importSceneNode, sceneNodesCyc, initialImportState, findCreated]
      norm_num
      rw [ih.1]

/-- Claim C5: importing any scene_nodes array aborts inside importSceneNodes,
whose loop iterates the array with object-member iterators, before a
single node is resolved; the resolution algorithm of importSceneNode
itself, run directly on the same two-node array (node 0 a static child of
the later node 1), does produce node 0 as a child of the handle of node 1 with
the static flag from its own record, entering each index into the
created-map once. -/
theorem importSceneNodes_memberIteration_aborts :
    importSceneNodes sceneNodesForward initialImportState =
      .fatal .memberBeginOnArray ∧
    importSceneNode 2 sceneNodesForward ⟨true, true, some 1, some true, none, none⟩ 0
      initialImportState =
      .ok (3, ⟨⟨[(0, ⟨false, .designatedRoot⟩), (1, ⟨true, .designatedRoot⟩),
                 (2, ⟨false, .topLevel⟩), (3, ⟨true, .child 2⟩)], 4⟩,
               [(1, 2), (0, 3)]⟩) := by decide

/-- Claim C6 counterexample: importing the example document of the spec does not
construct node 1 as the designated root.  The full import aborts in
importSceneNodes, and even direct resolution of node 0 (which recursively
constructs node 1 first) gives node 1 the fresh top-level handle 2 — not
a designated root handle — because the importer reads is_root_node from
the wrapper element, where the example document has none. -/
theorem importScene_rootNodeExample_counterexample :
    importSceneNodes sceneNodesRootExample initialImportState =
      .fatal .memberBeginOnArray ∧
    importSceneNode 2 sceneNodesRootExample ⟨true, true, some 1, none, none, none⟩ 0
      initialImportState =
      .ok (3, ⟨⟨[(0, ⟨false, .designatedRoot⟩), (1, ⟨true, .designatedRoot⟩),
                 (2, ⟨false, .topLevel⟩), (3, ⟨false, .child 2⟩)], 4⟩,
               [(1, 2), (0, 3)]⟩) ∧
    (2 : Nat) ≠ rootHandle false ∧ (2 : Nat) ≠ rootHandle true := by decide

/-- Claim C6 (amended): a node whose parent index equals its own index resolves
to the designated root handle of its memory type exactly when the
is_root_node flag on the wrapper scene_node element is true, and to a
fresh independent top-level node when that flag is absent or false; the
created handle is recorded in the map under the index of the node. -/
theorem importSceneNode_selfParent_rootFlag (fuel : Nat) (json : List SNodeRec)
    (v : SNodeRec) (idx : Nat) (st : ImportState)
    (hnode : v.hasNode = true) (hself : v.parentId.getD idx = idx) :
    importSceneNode (fuel + 1) json v idx st =
      (if v.sceneNodeIsRootNode.getD false then
        .ok (rootHandle (v.isStatic.getD false),
             { scene := st.scene,
               mCreatedSceneNodes := insertCreated st.mCreatedSceneNodes idx
                 (rootHandle (v.isStatic.getD false)) })
      else
        .ok (st.scene.nextHandle,
             { scene := { nodes := st.scene.nodes ++
                            [(st.scene.nextHandle, ⟨v.isStatic.getD false, .topLevel⟩)],
                          nextHandle := st.scene.nextHandle + 1 },
               mCreatedSceneNodes :=
                 insertCreated st.mCreatedSceneNodes idx st.scene.nextHandle })) := by
  simp only [importSceneNode, hnode, hself, eq_self_iff_true, if_true, ne_eq,
    not_true_eq_false, if_false, createSceneNode]
  cases hroot : v.sceneNodeIsRootNode.getD false <;> simp [hroot]

/-- Claim C6 witness: a self-parent record with the wrapper flag true resolves
to the dynamic designated root. -/
theorem importSceneNode_selfParent_rootFlag_witness :
    importSceneNode 1 [] ⟨true, true, none, none, some true, none⟩ 0
      initialImportState =
      .ok (rootHandle false,
           { scene := initialScene,
             mCreatedSceneNodes := insertCreated [] 0 (rootHandle false) }) := by
  have h := importSceneNode_selfParent_rootFlag 0 []
    ⟨true, true, none, none, some true, none⟩ 0 initialImportState rfl rfl
  simpa using h

/-- Claim C9: the first assertion of bindBuffer rejects the last valid byte
offset.  On a 4-byte buffer, offset 3 with sizeBytes 1 satisfies the
documented precondition (offset strictly below the total size, and offset
plus sizeBytes at most the total size), yet the assertion
offset < totalSize - 1 fails. -/
theorem bindBuffer_assertion_rejects_lastByte :
    (3 < totalSizeBytes ⟨4, 1, 0⟩ ∧ 3 + 1 ≤ totalSizeBytes ⟨4, 1, 0⟩) ∧
    ¬ bindBufferAssertsHold ⟨4, 1, 0⟩ 3 1 := by decide

/-- Claim C8: the byte range bindBuffer binds.  For any buffer whose total byte
size fits in size_t and any offset below the total size: with
sizeBytes = 0 the bound length is the rest of the buffer from offset (so
offset plus length equals the total size, and at offset 0 the whole
buffer is bound), with sizeBytes positive the bound length is exactly
sizeBytes; the start of the range is the start byte of the buffer in the
shared VBO plus offset. -/
theorem bindBuffer_sizeBytes_semantics (buf : TexBufferPackedModel)
    (offset sizeBytes : Nat)
    (hoff : offset < totalSizeBytes buf) (htot : totalSizeBytes buf < SIZETMOD) :
    (bindBufferRange buf offset 0).snd = totalSizeBytes buf - offset ∧
    offset + (bindBufferRange buf offset 0).snd = totalSizeBytes buf ∧
    (bindBufferRange buf 0 0).snd = totalSizeBytes buf ∧
    (sizeBytes ≠ 0 → (bindBufferRange buf offset sizeBytes).snd = sizeBytes) ∧
    (bindBufferRange buf offset sizeBytes).fst =
      buf.mFinalBufferStart * buf.mBytesPerElement + offset := by
  simp only [bindBufferRange, totalSizeBytes, sizetSub, SIZETMOD] at hoff htot ⊢
  refine ⟨?_, ?_, ?_, ?_, trivial⟩
  · rw [if_pos trivial]
    omega
  · rw [if_pos trivial]
    omega
  · rw [if_pos trivial]
    omega
  · intro hsz
    rw [if_neg hsz]

/-- Claim C8 witness: on a buffer of 8 elements of 4 bytes starting at element
2 of the shared VBO, binding from offset 5 with the zero sentinel covers
bytes 5 to 31, and an explicit size of 7 is kept as is. -/
theorem bindBuffer_sizeBytes_semantics_witness :
    (bindBufferRange ⟨8, 4, 2⟩ 5 0).snd = totalSizeBytes ⟨8, 4, 2⟩ - 5 ∧
    5 + (bindBufferRange ⟨8, 4, 2⟩ 5 0).snd = totalSizeBytes ⟨8, 4, 2⟩ ∧
    (bindBufferRange ⟨8, 4, 2⟩ 0 0).snd = totalSizeBytes ⟨8, 4, 2⟩ ∧
    ((7 : Nat) ≠ 0 → (bindBufferRange ⟨8, 4, 2⟩ 5 7).snd = 7) ∧
    (bindBufferRange ⟨8, 4, 2⟩ 5 7).fst = 2 * 4 + 5 :=
  bindBuffer_sizeBytes_semantics ⟨8, 4, 2⟩ 5 7 (by decide) (by decide)

/-- Claim C7 counterexample: with threads_per_group = (65536, 65536, 1) and
num_thread_groups = (1, 1, 1), every property value and both integer
products are nonzero, yet compileShader raises the zero-size exception,
because the uint32 product 65536 * 65536 wraps to zero. -/
theorem assemblePso_overflow_counterexample :
    assemblePso [⟨ThreadsPerGroupX, 65536⟩, ⟨ThreadsPerGroupY, 65536⟩,
                 ⟨ThreadsPerGroupZ, 1⟩, ⟨NumThreadGroupsX, 1⟩,
                 ⟨NumThreadGroupsY, 1⟩, ⟨NumThreadGroupsZ, 1⟩] none = .error () ∧
    (65536 : Int) * 65536 * 1 ≠ 0 ∧ (1 : Int) * 1 * 1 ≠ 0 :=
  ⟨rfl, by decide, by decide⟩

/-- Claim C7 (amended): compileShader raises the zero-size exception exactly
when the uint32 product (each int32 property value converted to uint32,
multiplied modulo 2^32) of the three threads-per-group properties is zero
or that of the three num-thread-groups properties is zero; when both
uint32 products are nonzero, no exception is raised and the returned PSO
carries the six uint32-converted property values. -/
theorem assemblePso_zeroProduct_exception (props : List HlmsProperty)
    (shader : Option Nat) :
    (assemblePso props shader = .error () ↔
       threadsProductU32 props = 0 ∨ groupsProductU32 props = 0) ∧
    (¬ (threadsProductU32 props = 0 ∨ groupsProductU32 props = 0) →
       assemblePso props shader =
         .ok ⟨shader,
              toU32 (getProperty props ThreadsPerGroupX),
              toU32 (getProperty props ThreadsPerGroupY),
              toU32 (getProperty props ThreadsPerGroupZ),
              toU32 (getProperty props NumThreadGroupsX),
              toU32 (getProperty props NumThreadGroupsY),
              toU32 (getProperty props NumThreadGroupsZ)⟩) := by
  unfold assemblePso
  split
  case isTrue h => exact ⟨iff_of_true rfl h, fun hc => absurd h hc⟩
  case isFalse h => exact ⟨iff_of_false (by simp) h, fun _ => rfl⟩

/-- Claim C7 witness: with all six properties set to small nonzero values the
PSO carries exactly those values and no exception is raised. -/
theorem assemblePso_zeroProduct_exception_witness :
    assemblePso [⟨ThreadsPerGroupX, 8⟩, ⟨ThreadsPerGroupY, 8⟩,
                 ⟨ThreadsPerGroupZ, 4⟩, ⟨NumThreadGroupsX, 2⟩,
                 ⟨NumThreadGroupsY, 3⟩, ⟨NumThreadGroupsZ, 5⟩] none =
      .ok ⟨none, 8, 8, 4, 2, 3, 5⟩ := by
  have h := (assemblePso_zeroProduct_exception
    [⟨ThreadsPerGroupX, 8⟩, ⟨ThreadsPerGroupY, 8⟩,
     ⟨ThreadsPerGroupZ, 4⟩, ⟨NumThreadGroupsX, 2⟩,
     ⟨NumThreadGroupsY, 3⟩, ⟨NumThreadGroupsZ, 5⟩] none).2 (by decide)
  simpa using h

/-- Claim C2: dispatch searches the PSO cache by value equality of the property
set.  Property sets written in any order (a permutation of distinct-key
writes) produce the same sorted vector, so the out-of-bounds dispatch of
either produces the same outcome; on a hit (the first value-equal entry at
index i) the cache is unchanged, no compile happens and only index i is
recorded on the job; on a miss a PSO is compiled and appended and the
index of the job is set to the new last entry. -/
theorem dispatch_propertyValueEquality
    (l₁ l₂ : List HlmsProperty) (hperm : l₁.Perm l₂)
    (hnodup : (l₁.map HlmsProperty.keyName).Nodup)
    (cr : Except Unit HlmsComputePsoModel)
    (cache : List ComputePsoCache) (job : ComputeJob)
    (hoob : ¬ job.mPsoCacheHash < cache.length) :
    buildProps l₂ = buildProps l₁ ∧
    dispatchCachePhase cr (buildProps l₂) cache job =
      dispatchCachePhase cr (buildProps l₁) cache job ∧
    (∀ i, cache.findIdx? (fun e => e.setProperties == buildProps l₁) = some i →
        dispatchCachePhase cr (buildProps l₁) cache job =
          .ok (cache, { job with mSetProperties := buildProps l₁,
                                 mPsoCacheHash := i }, false)) ∧
    (cache.findIdx? (fun e => e.setProperties == buildProps l₁) = none →
        ∀ pso, cr = .ok pso →
        dispatchCachePhase cr (buildProps l₁) cache job =
          .ok (cache ++ [{ jobId := job.id, setProperties := buildProps l₁,
                           pso := pso }],
               { job with mSetProperties := buildProps l₁,
                          mPsoCacheHash := cache.length }, true)) := by
  have hbp : buildProps l₂ = buildProps l₁ :=
    buildProps_perm l₂ l₁ hperm.symm
      ((hperm.map HlmsProperty.keyName).nodup_iff.mp hnodup)
  refine ⟨hbp, by rw [hbp], ?_, ?_⟩
  · intro i hi
    unfold dispatchCachePhase
    rw [if_neg hoob, hi]
  · intro hnone pso hcr
    unfold dispatchCachePhase
    rw [if_neg hoob, hnone, hcr]

/-- Claim C2 witness: the writes (1, 2), (3, 4) issued in either order produce
the same property set, and dispatching a fresh job against an empty cache
with that set compiles and appends one entry with the job index set to
0. -/
theorem dispatch_propertyValueEquality_witness :
    buildProps propsBA = buildProps propsAB ∧
    dispatchCachePhase (.ok psoW) (buildProps propsBA) [] jobA =
      dispatchCachePhase (.ok psoW) (buildProps propsAB) [] jobA ∧
    dispatchCachePhase (.ok psoW) (buildProps propsAB) [] jobA =
      .ok ([{ jobId := jobA.id, setProperties := buildProps propsAB, pso := psoW }],
           { jobA with mSetProperties := buildProps propsAB, mPsoCacheHash := 0 },
           true) := by
  have h := dispatch_propertyValueEquality propsAB propsBA
    (by decide) (by decide) (.ok psoW) [] jobA (by decide)
  have hmiss : ([] : List ComputePsoCache).findIdx?
      (fun e => e.setProperties == buildProps propsAB) = none := rfl
  have h3 := h.2.2.2 hmiss psoW rfl
  exact ⟨h.1, h.2.1, by simpa using h3⟩

/-- Claim C3 counterexample: a job that reused a cache entry by a hit keeps its
stale index after clearShaderCache.  Dispatching jobA (miss, compiles
entry 0) and then jobB with a value-equal property set (hit, records
index 0 but is not written into the entry, which still names jobA), then
clearing, resets the index of jobA to the sentinel but leaves that of jobB at 0. -/
theorem clearShaderCache_hitJob_counterexample :
    dispatchCachePhase (.ok psoW) propsP [] jobA =
      .ok ([{ jobId := 0, setProperties := propsP, pso := psoW }],
           ⟨0, propsP, 0⟩, true) ∧
    dispatchCachePhase (.ok psoW) propsP
        [{ jobId := 0, setProperties := propsP, pso := psoW }] jobB =
      .ok ([{ jobId := 0, setProperties := propsP, pso := psoW }],
           ⟨1, propsP, 0⟩, false) ∧
    clearShaderCache
        ⟨[{ jobId := 0, setProperties := propsP, pso := psoW }], [(42, 5)],
          [⟨0, propsP, 0⟩, ⟨1, propsP, 0⟩]⟩ =
      (⟨[], [], [⟨0, propsP, invalidPsoCacheHash⟩, ⟨1, propsP, 0⟩]⟩, [psoW]) ∧
    (0 : Nat) ≠ invalidPsoCacheHash :=
  ⟨rfl, rfl, rfl, by decide⟩

/-- Claim C3 (amended): clearShaderCache destroys every cached PSO through the
render-system hook (in cache order), empties both the PSO cache and the
program-dedup cache, and resets the cached index of every job recorded in
a cache entry (the job that triggered the compile of that entry) to the
invalid sentinel; jobs that only ever hit an existing entry keep their
old index, but since the cache is empty no job index is in bounds, so no
destroyed PSO stays reachable through a job. -/
theorem clearShaderCache_resets_and_clears (st : HlmsComputeState) :
    (clearShaderCache st).fst.mComputeShaderCache = [] ∧
    (clearShaderCache st).fst.mCompiledShaderCache = [] ∧
    (clearShaderCache st).snd = st.mComputeShaderCache.map (fun e => e.pso) ∧
    (∀ j ∈ (clearShaderCache st).fst.jobs,
        ¬ j.mPsoCacheHash < (clearShaderCache st).fst.mComputeShaderCache.length) ∧
    (∀ j ∈ st.jobs, (∃ e ∈ st.mComputeShaderCache, e.jobId = j.id) →
        { j with mPsoCacheHash := invalidPsoCacheHash } ∈
          (clearShaderCache st).fst.jobs) := by
  refine ⟨rfl, rfl, rfl, ?_, ?_⟩
  · intro j hj
    simp [clearShaderCache]
  · intro j hj ⟨e, he, heid⟩
    have hany : st.mComputeShaderCache.any (fun e => e.jobId == j.id) = true :=
      List.any_eq_true.mpr ⟨e, he, by simp [heid]⟩
    refine List.mem_map.mpr ⟨j, hj, ?_⟩
    rw [if_pos hany]

/-- Claim C3 witness: clearing the two-job state of the counterexample empties
both caches, reports the destroyed PSO, and leaves no in-bounds index. -/
theorem clearShaderCache_resets_and_clears_witness :
    (clearShaderCache
        ⟨[{ jobId := 0, setProperties := propsP, pso := psoW }], [(42, 5)],
          [⟨0, propsP, 0⟩, ⟨1, propsP, 0⟩]⟩).fst.mComputeShaderCache = [] ∧
    ({ jobId := 0, setProperties := propsP, pso := psoW } : ComputePsoCache).jobId =
      (⟨0, propsP, 0⟩ : ComputeJob).id ∧
    (⟨0, propsP, invalidPsoCacheHash⟩ : ComputeJob) ∈
      (clearShaderCache
        ⟨[{ jobId := 0, setProperties := propsP, pso := psoW }], [(42, 5)],
          [⟨0, propsP, 0⟩, ⟨1, propsP, 0⟩]⟩).fst.jobs := by
  have h := clearShaderCache_resets_and_clears
    ⟨[{ jobId := 0, setProperties := propsP, pso := psoW }], [(42, 5)],
      [⟨0, propsP, 0⟩, ⟨1, propsP, 0⟩]⟩
  refine ⟨h.1, rfl, ?_⟩
  have := h.2.2.2.2 ⟨0, propsP, 0⟩ (by decide)
    ⟨{ jobId := 0, setProperties := propsP, pso := psoW }, by decide, rfl⟩
  simpa using this

/-- Claim C10 counterexample: when the compile on the miss path throws, the
exception leaves the job holding the refreshed property set, not the
borrowed-empty state: the swap-back at line 343 happens before
compileShader runs. -/
theorem dispatch_throwPath_counterexample :
    dispatchCachePhase (.error ()) propsP [] jobA =
      .error ⟨0, propsP, invalidPsoCacheHash⟩ ∧
    propsP ≠ ([] : List HlmsProperty) :=
  ⟨rfl, by decide⟩

/-- Claim C10 (amended): on the out-of-bounds path, dispatch never alters the
property set of the job beyond what the auto-property refresh computes: on
every normal return the job holds exactly the refreshed set, every cache
entry is either pre-existing or stores its own copy of that set, and when
the compile throws, the propagated state also holds the refreshed set
(the swap-back precedes the compile). -/
theorem dispatch_preserves_jobProperties
    (cr : Except Unit HlmsComputePsoModel) (autoProps : List HlmsProperty)
    (cache : List ComputePsoCache) (job : ComputeJob)
    (hoob : ¬ job.mPsoCacheHash < cache.length) :
    (∀ cache2 job2 compiled,
        dispatchCachePhase cr autoProps cache job = .ok (cache2, job2, compiled) →
          job2.mSetProperties = autoProps ∧
          ∀ e ∈ cache2, e ∈ cache ∨ e.setProperties = autoProps) ∧
    (∀ jobErr, dispatchCachePhase cr autoProps cache job = .error jobErr →
        jobErr.mSetProperties = autoProps) := by
  unfold dispatchCachePhase
  rw [if_neg hoob]
  cases hf : cache.findIdx? (fun e => e.setProperties == autoProps) with
  | some i =>
    refine ⟨?_, ?_⟩
    · intro cache2 job2 compiled h
      simp only [Except.ok.injEq, Prod.mk.injEq] at h
      obtain ⟨rfl, rfl, rfl⟩ := h
      exact ⟨rfl, fun e he => Or.inl he⟩
    · intro jobErr h
      exact Except.noConfusion h
  | none =>
    cases cr with
    | error e =>
      refine ⟨?_, ?_⟩
      · intro cache2 job2 compiled h
        exact Except.noConfusion h
      · intro jobErr h
        simp only [Except.error.injEq] at h
        rw [← h]
    | ok pso =>
      refine ⟨?_, ?_⟩
      · intro cache2 job2 compiled h
        simp only [Except.ok.injEq, Prod.mk.injEq] at h
        obtain ⟨rfl, rfl, rfl⟩ := h
        refine ⟨rfl, ?_⟩
        intro e he
        rcases List.mem_append.mp he with hin | hin
        · exact Or.inl hin
        · simp only [List.mem_singleton] at hin
          subst hin
          exact Or.inr rfl
      · intro jobErr h
        exact Except.noConfusion h

/-- Claim C10 witness: a concrete out-of-bounds dispatch that compiles returns
the job holding the refreshed set, and the one new cache entry stores a
copy of it. -/
theorem dispatch_preserves_jobProperties_witness :
    (⟨0, propsP, 0⟩ : ComputeJob).mSetProperties = propsP :=
  (((dispatch_preserves_jobProperties (.ok psoW) propsP [] jobA (by decide)).1
    [{ jobId := 0, setProperties := propsP, pso := psoW }] ⟨0, propsP, 0⟩ true
    rfl)).1


end OgreSpec
